import Mathlib

/-
Verification of the ETL pipeline in ETLProcess/ETLProcess.py.

Shallow embedding conventions:
- A pandas DataFrame is a `Table`: an ordered list of column names plus a
  list of rows; a row is an association list from column name to `Cell`.
  A pandas NaN / missing cell is `Cell.null`; looking up a column with no
  binding in a row yields `Cell.null`, matching how concatenation with
  differing schemas materialises NaN cells.
- Floating point numbers are idealised as exact rationals.
- Python exceptions are values of `Fault` (for extraction) and `PdError`
  (for pandas faults that escape the per-file try/except: the KeyError of
  column selection and the ValueError of pd.concat on an empty list).
- The log file is a list of strings threaded explicitly.
- The in-place column assignment of transform_data is modelled by
  returning the mutated input table alongside the output table.
- asyncio.gather is modelled by `gatherFill`: a completion schedule (a
  permutation of task indices) fills a positional result slot per task,
  which is exactly how gather assembles its result list.
-/

namespace ETL

/-- Cell values of a table: a string, a number (idealised rational), or a
pandas NaN / missing value. -/
inductive Cell where
  | str (s : String)
  | num (q : ℚ)
  | null
deriving DecidableEq

/-- A row is an association list from column name to cell value. -/
abbrev Row := List (String × Cell)

/-- A DataFrame: ordered column names plus rows. -/
structure Table where
  cols : List String
  rows : List Row
deriving DecidableEq

/-- The empty DataFrame pd.DataFrame(): zero rows, zero columns. -/
def Table.empty : Table := ⟨[], []⟩

/-- Reading a cell: first binding with the given key, NaN when absent. -/
def getCell : Row → String → Cell
  | [], _ => .null
  | p :: rest, c => if p.1 = c then p.2 else getCell rest c

/-- Writing a cell: replace the binding in place when the key is present,
append it otherwise (python dict update semantics). -/
def dictSet : Row → String → Cell → Row
  | [], k, v => [(k, v)]
  | p :: rest, k, v => if p.1 = k then (k, v) :: rest else p :: dictSet rest k v

/-- A table is well formed when every binding of every row uses a declared
column name; every DataFrame produced by pandas satisfies this. -/
def wfTable (t : Table) : Bool :=
  t.rows.all (fun r => r.all (fun p => t.cols.contains p.1))

/-- Value of a decimal digit string (helper for numeric coercion). -/
def natOfDigits (cs : List Char) : Nat :=
  cs.foldl (fun n c => n * 10 + (c.toNat - 48)) 0

/-- Unsigned decimal literal parsing: digits with an optional single
decimal point, as accepted by pd.to_numeric. -/
def parseUnsigned (cs : List Char) : Option ℚ :=
  let intPart := cs.takeWhile (fun c => c ≠ '.')
  let rest := cs.dropWhile (fun c => c ≠ '.')
  match rest with
  | [] =>
    if !intPart.isEmpty && intPart.all Char.isDigit then
      some (natOfDigits intPart)
    else none
  | _ :: frac =>
    if (!intPart.isEmpty || !frac.isEmpty) && intPart.all Char.isDigit
        && frac.all Char.isDigit then
      some ((natOfDigits intPart : ℚ) + (natOfDigits frac : ℚ) / (10 : ℚ) ^ frac.length)
    else none

/-- Signed decimal literal parsing. -/
def parseNum (s : String) : Option ℚ :=
  match s.data with
  | '-' :: rest => (parseUnsigned rest).map (fun q => -q)
  | cs => parseUnsigned cs

/-- pd.to_numeric with errors coerce, as a partial coercion on cells:
numbers pass through, numeric strings parse, everything else is NaN. -/
def coerceQ : Cell → Option ℚ
  | .num q => some q
  | .str s => parseNum s
  | .null => none

/-- The three extractor classes of the source. -/
inductive ExtractorKind where
  | csv | json | xml
deriving DecidableEq

/-- Result of DataExtractorFactory.get_extractor: either an extractor
instance, or the sentinel fallback value of the dict lookup, a thunk that
would build ValueError with the fixed message. -/
inductive Resolved where
  | extractor (k : ExtractorKind)
  | sentinel (msg : String)
deriving DecidableEq

/-- DataExtractorFactory.get_extractor: dict lookup on the raw extension
string (case sensitive), defaulting to the ValueError sentinel. -/
def get_extractor (ft : String) : Resolved :=
  if ft = "csv" then .extractor .csv
  else if ft = "json" then .extractor .json
  else if ft = "xml" then .extractor .xml
  else .sentinel "Unsupported file type"

/-- The python expression file.split(dot)[-1]: the suffix after the last
dot, or the whole string when there is no dot. -/
def lastExt (file : String) : String :=
  String.mk ((file.data.reverse.takeWhile (fun c => c ≠ '.')).reverse)

/-- Exceptions an extractor call can raise, split by the except arms of
process_file; the third constructor covers every other Exception. -/
inductive Fault where
  | valueError (msg : String)
  | fileNotFound (msg : String)
  | otherError (msg : String)
deriving DecidableEq

/-- Environment giving the outcome of running a given extractor on a given
path (file contents and the filesystem are abstracted into it). -/
abbrev ExtractEnv := ExtractorKind → String → Except Fault Table

/-- Log line written by the matching except arm of process_file. -/
def faultLogMsg (file : String) (f : Fault) : String :=
  match f with
  | .valueError m => "ValueError processing file " ++ file ++ ": " ++ m
  | .fileNotFound m => "FileNotFoundError: " ++ m
  | .otherError m => "Error processing file " ++ file ++ ": " ++ m

/-- Log line for the unsupported-extension path: calling .extract on the
sentinel lambda raises AttributeError, caught by the Exception arm. -/
def attrErrMsg (file : String) : String :=
  "Error processing file " ++ file ++ ": function object has no attribute extract"

/-- ETLProcess.process_file: resolve the extension, run the extractor,
catch every exception, log it, and fall through to pd.DataFrame(). -/
def process_file (env : ExtractEnv) (file : String) (log : List String) :
    Table × List String :=
  match get_extractor (lastExt file) with
  | .sentinel _ => (Table.empty, log ++ [attrErrMsg file])
  | .extractor k =>
    match env k file with
    | .ok t => (t, log)
    | .error f => (Table.empty, log ++ [faultLogMsg file f])

/-- A minimal XML tree: tag, optional text, children. -/
inductive Xml where
  | elem (tag : String) (text : Option String) (children : List Xml)

/-- Row built from one direct child of the XML root: the dict comprehension
over its children, tag to text. -/
def xmlRow : Xml → Row
  | .elem _ _ children =>
    children.foldl
      (fun d c =>
        match c with
        | .elem tag text _ =>
          dictSet d tag (match text with | some s => .str s | none => .null))
      []

/-- pd.DataFrame on a list of dicts: columns are the keys in order of first
appearance, rows are the dicts. -/
def dataFrameOfRows (rows : List Row) : Table :=
  ⟨rows.foldl (fun acc r => acc ++ (r.map Prod.fst).filter (fun c => !(acc.contains c))) [],
   rows⟩

/-- XMLExtractor.extract: one row per direct child of the document root. -/
def xmlExtract : Xml → Table
  | .elem _ _ children => dataFrameOfRows (children.map xmlRow)

/-- pandas faults raised outside the per-file try/except. -/
inductive PdError where
  | keyError (msg : String)
  | noObjectsToConcat
deriving DecidableEq

instance {ε α : Type} [DecidableEq ε] [DecidableEq α] : DecidableEq (Except ε α) :=
  fun x y =>
    match x, y with
    | .ok a, .ok b => if h : a = b then .isTrue (by rw [h]) else .isFalse (by simp [h])
    | .error e, .error f => if h : e = f then .isTrue (by rw [h]) else .isFalse (by simp [h])
    | .ok _, .error _ => .isFalse (by simp)
    | .error _, .ok _ => .isFalse (by simp)

/-- Conversion factor 0.0254 applied to the height column. -/
def heightFactor : ℚ := 0.0254

/-- Conversion factor 0.453592 applied to the weight column. -/
def weightFactor : ℚ := 0.453592

/-- One converted cell: to_numeric with coerce, then multiply; a cell that
does not coerce stays NaN (NaN times anything is NaN). -/
def convertCell (r : Row) (c : String) (k : ℚ) : Cell :=
  match coerceQ (getCell r c) with
  | some q => .num (q * k)
  | none => .null

/-- The in-place column assignment of transform_data on one row: both
right-hand sides read the original row, then both cells are written. -/
def convertRow (r : Row) : Row :=
  dictSet (dictSet r "height" (convertCell r "height" heightFactor))
    "weight" (convertCell r "weight" weightFactor)

/-- Column selection df with a list of labels: a fresh table with exactly
those columns, reading each cell from the source row. -/
def selectCols (df : Table) (cs : List String) : Table :=
  ⟨cs, df.rows.map (fun r => cs.map (fun c => (c, getCell r c)))⟩

/-- ETLProcess.transform_data. The selection on the right-hand side raises
KeyError when height or weight is missing; the final selection raises
KeyError when name is missing. On success the result is the pair of the
returned three-column table and the mutated input table. -/
def transform_data (df : Table) : Except PdError (Table × Table) :=
  if df.cols.contains "height" && df.cols.contains "weight" then
    let df2 : Table := ⟨df.cols, df.rows.map convertRow⟩
    if df2.cols.contains "name" then
      .ok (selectCols df2 ["name", "height", "weight"], df2)
    else .error (.keyError "name")
  else .error (.keyError "height,weight")

/-- Columns of pd.concat output: union of the input column lists in order
of first appearance. -/
def unionCols (ts : List Table) : List String :=
  ts.foldl (fun acc t => acc ++ t.cols.filter (fun c => !(acc.contains c))) []

/-- pd.concat with ignore_index: raises ValueError on an empty list,
otherwise unions the columns and concatenates the rows. -/
def concatTables (ts : List Table) : Except PdError Table :=
  match ts with
  | [] => .error .noObjectsToConcat
  | _ :: _ => .ok ⟨unionCols ts, (ts.map Table.rows).flatten⟩

/-- Result of the task dispatched for the i-th discovered file, run with an
empty log of its own. -/
def taskResult (env : ExtractEnv) (files : List String) (i : Nat) : Table :=
  (process_file env (files.getD i "") []).fst

/-- asyncio.gather: tasks complete in schedule order, each writing its
result into its own positional slot; the list is read out in slot order. -/
def gatherFill (f : Nat → Table) (n : Nat) (sched : List Nat) : List Table :=
  sched.foldl (fun acc i => acc.set i (f i)) (List.replicate n Table.empty)

/-- The result list run obtains from asyncio.gather over the per-file
tasks, given a completion schedule. -/
def gatherResults (env : ExtractEnv) (files : List String) (sched : List Nat) :
    List Table :=
  gatherFill (taskResult env files) files.length sched

/-- ETLProcess.run up to the table handed to load_data: gather, concat,
transform. Errors of concat and transform propagate (run has no handler). -/
def runPipeline (env : ExtractEnv) (files : List String) (sched : List Nat) :
    Except PdError Table :=
  match concatTables (gatherResults env files sched) with
  | .error e => .error e
  | .ok agg =>
    match transform_data agg with
    | .error e => .error e
    | .ok (out, _) => .ok out

/-- A task fails when the extension resolves to the sentinel (its .extract
call raises AttributeError) or the chosen extractor raises. -/
def taskFails (env : ExtractEnv) (file : String) : Prop :=
  (∃ m, get_extractor (lastExt file) = .sentinel m) ∨
  (∃ k f, get_extractor (lastExt file) = .extractor k ∧ env k file = .error f)

/-- Environment where every extractor succeeds with the empty table. -/
def envAllOk : ExtractEnv := fun _ _ => .ok Table.empty

/-- Environment where every extractor raises ValueError. -/
def envErr : ExtractEnv := fun _ _ => .error (.valueError "boom")

/-- Environment where every extraction succeeds with the table extracted
from an XML document whose root has no children. -/
def envXmlEmpty : ExtractEnv := fun _ _ => .ok (xmlExtract (.elem "root" none []))

/-- Concrete input table used by witnesses: one imperial record. -/
def tIn : Table :=
  ⟨["name", "height", "weight"],
   [[("name", .str "Bob"), ("height", .str "70"), ("weight", .str "180")]]⟩

/-- The table tIn after transform_data has run on it: the height and
weight cells have been overwritten with converted numbers. -/
def tMut : Table :=
  ⟨["name", "height", "weight"],
   [[("name", .str "Bob"), ("height", .num (70 * (0.0254 : ℚ))),
     ("weight", .num (180 * (0.453592 : ℚ)))]]⟩

/-- Concrete table with a single name column, used by the C8 witness. -/
def tNameOnly : Table := ⟨["name"], [[("name", .str "a")]]⟩

/-- Concrete table with a single height column, used by the C8 witness. -/
def tHeightOnly : Table := ⟨["height"], [[("height", .num 5)]]⟩

theorem getCell_dictSet_self (r : Row) (k : String) (v : Cell) :
    getCell (dictSet r k v) k = v := by
  induction r with
  | nil => simp [dictSet, getCell]
  | cons p rest ih =>
    by_cases h : p.1 = k
    · simp [dictSet, h, getCell]
    · simp [dictSet, h, getCell, ih]

theorem getCell_dictSet_ne (r : Row) (k : String) (v : Cell) (c : String)
    (h : c ≠ k) : getCell (dictSet r k v) c = getCell r c := by
  induction r with
  | nil => simp [dictSet, getCell, Ne.symm h]
  | cons p rest ih =>
    by_cases hp : p.1 = k
    · simp [dictSet, hp, getCell, Ne.symm h]
    · simp [dictSet, hp, getCell, ih]

theorem getCell_convertRow_height (r : Row) :
    getCell (convertRow r) "height" = convertCell r "height" heightFactor := by
  unfold convertRow
  rw [getCell_dictSet_ne _ _ _ _ (by decide), getCell_dictSet_self]

theorem getCell_convertRow_weight (r : Row) :
    getCell (convertRow r) "weight" = convertCell r "weight" weightFactor := by
  unfold convertRow
  rw [getCell_dictSet_self]

theorem getCell_convertRow_other (r : Row) (c : String)
    (h1 : c ≠ "height") (h2 : c ≠ "weight") :
    getCell (convertRow r) c = getCell r c := by
  unfold convertRow
  rw [getCell_dictSet_ne _ _ _ _ h2, getCell_dictSet_ne _ _ _ _ h1]

theorem transform_data_eq (df : Table)
    (hh : df.cols.contains "height" = true)
    (hw : df.cols.contains "weight" = true)
    (hn : df.cols.contains "name" = true) :
    transform_data df =
      .ok (selectCols ⟨df.cols, df.rows.map convertRow⟩ ["name", "height", "weight"],
           ⟨df.cols, df.rows.map convertRow⟩) := by
  have hh' : "height" ∈ df.cols := by simpa using hh
  have hw' : "weight" ∈ df.cols := by simpa using hw
  have hn' : "name" ∈ df.cols := by simpa using hn
  unfold transform_data
  simp [hh', hw', hn']

theorem getD_map_of_lt {α β : Type} (f : α → β) (l : List α) (i : Nat)
    (h : i < l.length) (d : β) (d' : α) :
    (l.map f).getD i d = f (l.getD i d') := by
  simp [List.getD_eq_getElem?_getD, List.getElem?_map, List.getElem?_eq_getElem h]

theorem mem_unionCols_foldl (ts : List Table) (acc : List String) (c : String) :
    (c ∈ ts.foldl (fun a t => a ++ t.cols.filter (fun x => !(a.contains x))) acc ↔
      c ∈ acc ∨ ∃ t, t ∈ ts ∧ c ∈ t.cols) := by
  induction ts generalizing acc with
  | nil => simp
  | cons t rest ih =>
    rw [List.foldl_cons, ih]
    simp only [List.mem_append, List.mem_filter, List.mem_cons]
    by_cases hacc : c ∈ acc
    · simp [hacc]
    · simp only [hacc, false_or]
      constructor
      · rintro (⟨hc, _⟩ | ⟨t', ht', hc⟩)
        · exact ⟨t, Or.inl rfl, hc⟩
        · exact ⟨t', Or.inr ht', hc⟩
      · rintro ⟨t', rfl | ht', hc⟩
        · exact Or.inl ⟨hc, by simpa using hacc⟩
        · exact Or.inr ⟨t', ht', hc⟩

theorem mem_unionCols (ts : List Table) (c : String) :
    c ∈ unionCols ts ↔ ∃ t, t ∈ ts ∧ c ∈ t.cols := by
  unfold unionCols
  rw [mem_unionCols_foldl]
  simp

theorem getCell_eq_null_of_not_mem (r : Row) (cols : List String)
    (hr : ∀ p ∈ r, p.1 ∈ cols) (c : String) (hc : c ∉ cols) :
    getCell r c = .null := by
  induction r with
  | nil => rfl
  | cons p rest ih =>
    have hp : p.1 ∈ cols := hr p (List.mem_cons_self p rest)
    have hne : p.1 ≠ c := fun hh => hc (hh ▸ hp)
    show (if p.1 = c then p.2 else getCell rest c) = .null
    rw [if_neg hne]
    exact ih (fun q hq => hr q (List.mem_cons_of_mem _ hq))

theorem length_gatherFoldl (f : Nat → Table) (sched : List Nat)
    (acc : List Table) :
    (sched.foldl (fun a i => a.set i (f i)) acc).length = acc.length := by
  induction sched generalizing acc with
  | nil => rfl
  | cons j rest ih => rw [List.foldl_cons, ih, List.length_set]

theorem getD_gatherFoldl (f : Nat → Table) (sched : List Nat)
    (acc : List Table) (i : Nat) (hi : i < acc.length) :
    (sched.foldl (fun a j => a.set j (f j)) acc).getD i Table.empty =
      if i ∈ sched then f i else acc.getD i Table.empty := by
  induction sched generalizing acc with
  | nil => simp
  | cons j rest ih =>
    rw [List.foldl_cons]
    have hi' : i < (acc.set j (f j)).length := by simpa using hi
    rw [ih _ hi']
    by_cases hm : i ∈ rest
    · simp [hm]
    · by_cases hij : i = j
      · subst hij
        simp [hm, List.getD_eq_getElem?_getD, List.getElem?_set_self hi]
      · simp [hm, hij, List.getD_eq_getElem?_getD,
          List.getElem?_set_ne (Ne.symm hij)]

/-- C1: every error arising in the task for one input file (unsupported
extension, extraction fault of any kind) is caught inside process_file,
logged with the matching except-arm message, and converted to a normally
returned result; process_file is a total function into Table paired with
the log, so no per-file error propagates out of the task, aborts sibling
tasks, or terminates the run. The three conjuncts fully characterise
process_file: success passes the extracted table through, and both
failure shapes return normally with one appended log line. -/
theorem C1_task_isolation :
    ∀ (env : ExtractEnv) (file : String) (log : List String),
      (∀ k t, get_extractor (lastExt file) = .extractor k → env k file = .ok t →
        process_file env file log = (t, log)) ∧
      (∀ m, get_extractor (lastExt file) = .sentinel m →
        process_file env file log = (Table.empty, log ++ [attrErrMsg file])) ∧
      (∀ k f, get_extractor (lastExt file) = .extractor k → env k file = .error f →
        process_file env file log = (Table.empty, log ++ [faultLogMsg file f])) := by
  intro env file log
  refine ⟨?_, ?_, ?_⟩
  · intro k t hk ht
    simp [process_file, hk, ht]
  · intro m hm
    simp [process_file, hm]
  · intro k f hk hf
    simp [process_file, hk, hf]

theorem C1_task_isolation_witness :
    process_file envErr "a.csv" [] =
      (Table.empty, [] ++ [faultLogMsg "a.csv" (Fault.valueError "boom")]) :=
  (C1_task_isolation envErr "a.csv" []).2.2 .csv (.valueError "boom")
    (by decide) rfl

/-- C2 (code bug): the claim says that when every extraction task fails,
the empty aggregate flows through transform and load and run completes.
In the code, the aggregate of all-empty results is indeed the zero-row
zero-column table (second conjunct), but transform_data then raises
KeyError because the height and weight columns are absent from it, so run
terminates with an unhandled exception (first conjunct). -/
theorem C2_all_fail_keyerror :
    runPipeline envAllOk ["./unzipped_folder/a.txt"] [0] =
      .error (.keyError "height,weight") ∧
    concatTables (gatherResults envAllOk ["./unzipped_folder/a.txt"] [0]) =
      .ok Table.empty := by decide

/-- C3 (code bug): the claim says an empty input directory yields a
header-only output file and a successful exit. In the code, zero
discovered files make pd.concat receive an empty list, which raises
ValueError before transform or load can run, so run never completes and
no output file is written. -/
theorem C3_empty_dir_concat_error :
    runPipeline envAllOk [] [] = .error PdError.noObjectsToConcat := by decide

/-- C4 (counterexample): the claim says the resolver returns an error
value carrying the raw extension string. The resolver returns the very
same sentinel for distinct unsupported extensions, with the fixed message
Unsupported file type, so the returned value cannot carry the extension. -/
theorem C4_resolver_cex :
    get_extractor "txt" = get_extractor "pdf" ∧ ("txt" : String) ≠ "pdf" ∧
    get_extractor "txt" = .sentinel "Unsupported file type" := by decide

/-- C4 (amended): the resolver returns the matching extractor exactly when
the extension is csv, json or xml, compared case-sensitively with no
normalization; for every other extension it returns the fixed sentinel
value with message Unsupported file type (not carrying the extension),
and, being a total function, it never raises. -/
theorem C4_resolver_amended :
    ∀ ft : String,
      (get_extractor ft = .extractor .csv ↔ ft = "csv") ∧
      (get_extractor ft = .extractor .json ↔ ft = "json") ∧
      (get_extractor ft = .extractor .xml ↔ ft = "xml") ∧
      (ft ≠ "csv" → ft ≠ "json" → ft ≠ "xml" →
        get_extractor ft = .sentinel "Unsupported file type") := by
  intro ft
  by_cases h1 : ft = "csv"
  · subst h1; simp [get_extractor]
  · by_cases h2 : ft = "json"
    · subst h2; simp [get_extractor]
    · by_cases h3 : ft = "xml"
      · subst h3; simp [get_extractor]
      · simp [get_extractor, h1, h2, h3]

theorem C4_resolver_amended_witness :
    ((("txt" : String) ≠ "csv") ∧ (("txt" : String) ≠ "json") ∧
      (("txt" : String) ≠ "xml")) ∧
    get_extractor "txt" = .sentinel "Unsupported file type" :=
  ⟨⟨by decide, by decide, by decide⟩,
   (C4_resolver_amended "txt").2.2.2 (by decide) (by decide) (by decide)⟩

/-- C9: on every per-file failure process_file returns the zero-row,
zero-column empty table rather than a tagged Failure value; the same
value is produced by a successful extraction of an XML file whose root
has no children, so at the aggregation interface a failed file is
indistinguishable from a successfully extracted file with no records
(final conjunct: same table, and the empty log shows no failure). -/
theorem C9_failure_empty_table :
    (∀ (env : ExtractEnv) (file : String) (log : List String),
      taskFails env file → (process_file env file log).fst = Table.empty) ∧
    Table.empty.rows.length = 0 ∧ Table.empty.cols.length = 0 ∧
    process_file envXmlEmpty "c.xml" [] = (Table.empty, []) := by
  refine ⟨?_, rfl, rfl, by decide⟩
  intro env file log hfail
  rcases hfail with ⟨m, hm⟩ | ⟨k, f, hk, hf⟩
  · simp [process_file, hm]
  · simp [process_file, hk, hf]

theorem C9_failure_empty_table_witness :
    (process_file envXmlEmpty "a.txt" []).fst = Table.empty :=
  C9_failure_empty_table.1 envXmlEmpty "a.txt" []
    (Or.inl ⟨"Unsupported file type", by decide⟩)

/-- C10: asyncio.gather writes each task result into the positional slot
of the task, so whatever order the tasks complete in (any permutation of
the task indices), the collected result list equals the per-file results
in file discovery order; the concatenation order is therefore
deterministic and equal to the discovery order. -/
theorem C10_gather_order (env : ExtractEnv) (files : List String)
    (sched : List Nat) (hperm : List.Perm sched (List.range files.length)) :
    gatherResults env files sched =
      files.map (fun file => (process_file env file []).fst) := by
  have hlen : (gatherResults env files sched).length = files.length := by
    unfold gatherResults gatherFill
    rw [length_gatherFoldl, List.length_replicate]
  apply List.ext_getElem
  · rw [hlen, List.length_map]
  · intro i h1 h2
    have hif : i < files.length := by rwa [hlen] at h1
    have hrep : i < (List.replicate files.length Table.empty).length := by
      simpa using hif
    have hmem : i ∈ sched := by
      rw [hperm.mem_iff, List.mem_range]
      exact hif
    have hgetD : (gatherResults env files sched).getD i Table.empty =
        taskResult env files i := by
      unfold gatherResults gatherFill
      rw [getD_gatherFoldl _ _ _ _ hrep, if_pos hmem]
    have hgetD' : (gatherResults env files sched).getD i Table.empty =
        (gatherResults env files sched)[i] := by
      rw [List.getD_eq_getElem?_getD, List.getElem?_eq_getElem h1]
      rfl
    rw [← hgetD', hgetD, List.getElem_map]
    unfold taskResult
    have : files.getD i "" = files[i] := by
      rw [List.getD_eq_getElem?_getD, List.getElem?_eq_getElem hif]
      rfl
    rw [this]

theorem C10_gather_order_witness :
    List.Perm [1, 0] (List.range (["a.csv", "b.txt"] : List String).length) ∧
    gatherResults envXmlEmpty ["a.csv", "b.txt"] [1, 0] =
      ["a.csv", "b.txt"].map (fun file => (process_file envXmlEmpty file []).fst) :=
  ⟨by decide, C10_gather_order envXmlEmpty ["a.csv", "b.txt"] [1, 0] (by decide)⟩

theorem selRow_getD (df : Table) (i : Nat) (hi : i < df.rows.length) :
    (selectCols ⟨df.cols, df.rows.map convertRow⟩
        ["name", "height", "weight"]).rows.getD i [] =
      ["name", "height", "weight"].map
        (fun c => (c, getCell (convertRow (df.rows.getD i [])) c)) := by
  have hmap : i < (df.rows.map convertRow).length := by simpa using hi
  show ((df.rows.map convertRow).map _).getD i [] = _
  rw [getD_map_of_lt _ _ _ hmap _ [], getD_map_of_lt _ _ _ hi _ []]

/-- C5: when the required columns are present (so the transform does not
raise), the height cell of every row that coerces to a number q comes out as
q times 0.0254 and every weight cell that coerces to w comes out as w
times 0.453592 (exact rational arithmetic stands in for floating point);
a height or weight cell that does not coerce comes out as null, never as
a default 0, and row count is preserved. -/
theorem C5_transform_numeric (df : Table)
    (hn : df.cols.contains "name" = true)
    (hh : df.cols.contains "height" = true)
    (hw : df.cols.contains "weight" = true) :
    ∃ out df2, transform_data df = .ok (out, df2) ∧
      out.rows.length = df.rows.length ∧
      ∀ i, i < df.rows.length →
        ((∀ q, coerceQ (getCell (df.rows.getD i []) "height") = some q →
            getCell (out.rows.getD i []) "height" = .num (q * (0.0254 : ℚ))) ∧
         (coerceQ (getCell (df.rows.getD i []) "height") = none →
            getCell (out.rows.getD i []) "height" = .null) ∧
         (∀ q, coerceQ (getCell (df.rows.getD i []) "weight") = some q →
            getCell (out.rows.getD i []) "weight" = .num (q * (0.453592 : ℚ))) ∧
         (coerceQ (getCell (df.rows.getD i []) "weight") = none →
            getCell (out.rows.getD i []) "weight" = .null)) := by
  refine ⟨_, _, transform_data_eq df hh hw hn, by simp [selectCols], ?_⟩
  intro i hi
  rw [selRow_getD df i hi]
  have hgh : getCell (["name", "height", "weight"].map
      (fun c => (c, getCell (convertRow (df.rows.getD i [])) c))) "height" =
      getCell (convertRow (df.rows.getD i [])) "height" := by
    simp [getCell]
  have hgw : getCell (["name", "height", "weight"].map
      (fun c => (c, getCell (convertRow (df.rows.getD i [])) c))) "weight" =
      getCell (convertRow (df.rows.getD i [])) "weight" := by
    simp [getCell]
  refine ⟨?_, ?_, ?_, ?_⟩
  · intro q hq
    rw [hgh, getCell_convertRow_height]
    unfold convertCell
    rw [hq]
    rfl
  · intro hq
    rw [hgh, getCell_convertRow_height]
    unfold convertCell
    rw [hq]
  · intro q hq
    rw [hgw, getCell_convertRow_weight]
    unfold convertCell
    rw [hq]
    rfl
  · intro hq
    rw [hgw, getCell_convertRow_weight]
    unfold convertCell
    rw [hq]

theorem C5_transform_numeric_witness :
    (tIn.cols.contains "name" = true ∧ tIn.cols.contains "height" = true ∧
      tIn.cols.contains "weight" = true) ∧
    (∃ out df2, transform_data tIn = .ok (out, df2) ∧
      out.rows.length = tIn.rows.length ∧
      ∀ i, i < tIn.rows.length →
        ((∀ q, coerceQ (getCell (tIn.rows.getD i []) "height") = some q →
            getCell (out.rows.getD i []) "height" = .num (q * (0.0254 : ℚ))) ∧
         (coerceQ (getCell (tIn.rows.getD i []) "height") = none →
            getCell (out.rows.getD i []) "height" = .null) ∧
         (∀ q, coerceQ (getCell (tIn.rows.getD i []) "weight") = some q →
            getCell (out.rows.getD i []) "weight" = .num (q * (0.453592 : ℚ))) ∧
         (coerceQ (getCell (tIn.rows.getD i []) "weight") = none →
            getCell (out.rows.getD i []) "weight" = .null))) :=
  ⟨⟨by decide, by decide, by decide⟩,
   C5_transform_numeric tIn (by decide) (by decide) (by decide)⟩

/-- C6: when the input table has the name, height and weight columns, the
output table has exactly those three columns in that order (so every
extra input column is dropped), has the same row count as the input (so
rows with a null name are kept), and passes each name cell through
unchanged. -/
theorem C6_transform_columns (df : Table)
    (hn : df.cols.contains "name" = true)
    (hh : df.cols.contains "height" = true)
    (hw : df.cols.contains "weight" = true) :
    ∃ out df2, transform_data df = .ok (out, df2) ∧
      out.cols = ["name", "height", "weight"] ∧
      out.rows.length = df.rows.length ∧
      ∀ i, i < df.rows.length →
        getCell (out.rows.getD i []) "name" = getCell (df.rows.getD i []) "name" := by
  refine ⟨_, _, transform_data_eq df hh hw hn, rfl, by simp [selectCols], ?_⟩
  intro i hi
  rw [selRow_getD df i hi]
  have hgn : getCell (["name", "height", "weight"].map
      (fun c => (c, getCell (convertRow (df.rows.getD i [])) c))) "name" =
      getCell (convertRow (df.rows.getD i [])) "name" := by
    simp [getCell]
  rw [hgn, getCell_convertRow_other _ _ (by decide) (by decide)]

theorem C6_transform_columns_witness :
    (tIn.cols.contains "name" = true ∧ tIn.cols.contains "height" = true ∧
      tIn.cols.contains "weight" = true) ∧
    (∃ out df2, transform_data tIn = .ok (out, df2) ∧
      out.cols = ["name", "height", "weight"] ∧
      out.rows.length = tIn.rows.length ∧
      ∀ i, i < tIn.rows.length →
        getCell (out.rows.getD i []) "name" = getCell (tIn.rows.getD i []) "name") :=
  ⟨⟨by decide, by decide, by decide⟩,
   C6_transform_columns tIn (by decide) (by decide) (by decide)⟩

/-- C7 (counterexample): the claim says transform_data leaves the table of
the caller unchanged. On the one-record imperial table tIn the column
assignment inside transform_data overwrites the height and weight cells
of that table in place, so after the call the caller holds tMut, which
differs from tIn. -/
theorem C7_mutation_cex :
    transform_data tIn = .ok (tMut, tMut) ∧ tMut ≠ tIn := ⟨rfl, by decide⟩

/-- C7 (amended): transform_data does produce a fresh output table, but it
mutates the table it was given: the height and weight cells of every row
of that table are overwritten in place with the converted values,
while its column list, row count, and every cell outside the height and
weight columns are unchanged. -/
theorem C7_transform_mutates (df : Table)
    (hn : df.cols.contains "name" = true)
    (hh : df.cols.contains "height" = true)
    (hw : df.cols.contains "weight" = true) :
    ∃ out df2, transform_data df = .ok (out, df2) ∧
      df2.cols = df.cols ∧
      df2.rows.length = df.rows.length ∧
      ∀ i, i < df.rows.length →
        ((∀ c, c ≠ "height" → c ≠ "weight" →
            getCell (df2.rows.getD i []) c = getCell (df.rows.getD i []) c) ∧
         getCell (df2.rows.getD i []) "height" =
           convertCell (df.rows.getD i []) "height" heightFactor ∧
         getCell (df2.rows.getD i []) "weight" =
           convertCell (df.rows.getD i []) "weight" weightFactor) := by
  refine ⟨_, _, transform_data_eq df hh hw hn, rfl, by simp, ?_⟩
  intro i hi
  have hd2 : (df.rows.map convertRow).getD i [] = convertRow (df.rows.getD i []) :=
    getD_map_of_lt convertRow df.rows i hi [] []
  refine ⟨?_, ?_, ?_⟩
  · intro c h1 h2
    rw [show (⟨df.cols, df.rows.map convertRow⟩ : Table).rows = df.rows.map convertRow from rfl,
      hd2, getCell_convertRow_other _ _ h1 h2]
  · rw [show (⟨df.cols, df.rows.map convertRow⟩ : Table).rows = df.rows.map convertRow from rfl,
      hd2, getCell_convertRow_height]
  · rw [show (⟨df.cols, df.rows.map convertRow⟩ : Table).rows = df.rows.map convertRow from rfl,
      hd2, getCell_convertRow_weight]

theorem C7_transform_mutates_witness :
    (tIn.cols.contains "name" = true ∧ tIn.cols.contains "height" = true ∧
      tIn.cols.contains "weight" = true) ∧
    (∃ out df2, transform_data tIn = .ok (out, df2) ∧
      df2.cols = tIn.cols ∧
      df2.rows.length = tIn.rows.length ∧
      ∀ i, i < tIn.rows.length →
        ((∀ c, c ≠ "height" → c ≠ "weight" →
            getCell (df2.rows.getD i []) c = getCell (tIn.rows.getD i []) c) ∧
         getCell (df2.rows.getD i []) "height" =
           convertCell (tIn.rows.getD i []) "height" heightFactor ∧
         getCell (df2.rows.getD i []) "weight" =
           convertCell (tIn.rows.getD i []) "weight" weightFactor)) :=
  ⟨⟨by decide, by decide, by decide⟩,
   C7_transform_mutates tIn (by decide) (by decide) (by decide)⟩

/-- C8 (counterexample): the claim quantifies over every collection of
successfully extracted tables, including the empty collection; there
pd.concat raises ValueError instead of producing a table, so aggregation
does not produce the union-schema table the claim describes. -/
theorem C8_concat_cex : concatTables [] = .error PdError.noObjectsToConcat := rfl

/-- C8 (amended): for every nonempty collection of well-formed tables with
possibly differing column sets, concatenation produces one table whose
column set is the union of the input column sets, whose row count is
the sum of the input row counts, and in which every aggregated row
reads null at each column absent from its source table. -/
theorem C8_concat_amended (ts : List Table) (hne : ts ≠ [])
    (hwf : ts.all wfTable = true) :
    ∃ u, concatTables ts = .ok u ∧
      (∀ c, c ∈ u.cols ↔ ∃ t, t ∈ ts ∧ c ∈ t.cols) ∧
      u.rows.length = (ts.map (fun t => t.rows.length)).sum ∧
      (∀ r, r ∈ u.rows → ∃ t, t ∈ ts ∧ r ∈ t.rows ∧
        ∀ c, c ∉ t.cols → getCell r c = .null) := by
  obtain ⟨t0, rest, rfl⟩ : ∃ t0 rest, ts = t0 :: rest := by
    cases ts with
    | nil => exact absurd rfl hne
    | cons a b => exact ⟨a, b, rfl⟩
  refine ⟨_, rfl, ?_, ?_, ?_⟩
  · intro c
    exact mem_unionCols _ c
  · simp [List.length_flatten, List.map_map, Function.comp_def]
  · intro r hr
    have hr' : r ∈ ((t0 :: rest).map Table.rows).flatten := hr
    rw [List.mem_flatten] at hr'
    obtain ⟨rs, hrs, hrrs⟩ := hr'
    rw [List.mem_map] at hrs
    obtain ⟨t', ht', rfl⟩ := hrs
    refine ⟨t', ht', hrrs, ?_⟩
    intro c hc
    have hwt : wfTable t' = true := by
      rw [List.all_eq_true] at hwf
      exact hwf t' ht'
    apply getCell_eq_null_of_not_mem r t'.cols ?_ c hc
    intro p hp
    unfold wfTable at hwt
    rw [List.all_eq_true] at hwt
    have hall := hwt r hrrs
    rw [List.all_eq_true] at hall
    have hcontains := hall p hp
    simpa [List.contains] using hcontains

theorem C8_concat_amended_witness :
    (([tNameOnly, tHeightOnly] : List Table) ≠ [] ∧
      ([tNameOnly, tHeightOnly] : List Table).all wfTable = true) ∧
    (∃ u, concatTables [tNameOnly, tHeightOnly] = .ok u ∧
      (∀ c, c ∈ u.cols ↔ ∃ t, t ∈ ([tNameOnly, tHeightOnly] : List Table) ∧ c ∈ t.cols) ∧
      u.rows.length =
        (([tNameOnly, tHeightOnly] : List Table).map (fun t => t.rows.length)).sum ∧
      (∀ r, r ∈ u.rows → ∃ t, t ∈ ([tNameOnly, tHeightOnly] : List Table) ∧ r ∈ t.rows ∧
        ∀ c, c ∉ t.cols → getCell r c = .null)) :=
  ⟨⟨by decide, by decide⟩,
   C8_concat_amended [tNameOnly, tHeightOnly] (by decide) (by decide)⟩

end ETL
